import Mathlib

/-!
# Verification of the Trading Simulator's accounting and price-simulation logic

Shallow embedding of the portfolio accounting and price-simulation engine of a
browser stock-trading simulator.  JavaScript numbers are modelled as exact
rationals (`ℚ`), integer-valued quantities as `ℤ`, object maps keyed by symbol
as association lists `List (String × α)`, and `Math.random()` draws as explicit
rational parameters in `[0, 1)` supplied by the caller.  Timestamps
(`Date.now()`) are modelled as an integer parameter `now`.

The embedded functions follow the source file containing the transaction-log
variant of the trade handler (referred to below by its line numbers), the
module `live-updates.js`, and `app.js`.
-/

namespace TradingSim

/-- A market quote: `{ symbol, price, change, timestamp }` as produced by
`generateStockQuote` and stored in the `marketData` cache. -/
structure Quote where
  symbol : String
  price : ℚ
  change : ℚ
  timestamp : ℤ
  deriving Repr, DecidableEq

/-- A portfolio ledger entry: `{ quantity, avgCost }`. -/
structure HoldingEntry where
  quantity : ℤ
  avgCost : ℚ
  deriving Repr, DecidableEq

/-- Trade side, the `tradeType` form field. -/
inductive TradeType where
  | buy
  | sell
  deriving Repr, DecidableEq

/-- One record of `transactionHistory`:
`{ type, symbol, quantity, price, total, timestamp }`. -/
structure Transaction where
  type : TradeType
  symbol : String
  quantity : ℤ
  price : ℚ
  total : ℚ
  timestamp : ℤ
  deriving Repr, DecidableEq

/-- The outcome reported to the user by the trade handler: each rejection
branch shows a distinct, specific notification message. -/
inductive TradeOutcome where
  | invalidInput
  | quoteUnavailable
  | insufficientFunds
  | insufficientShares
  | success
  deriving Repr, DecidableEq

/-- The module-level mutable state touched by the trade handler:
`portfolio`, `balance`, `previousBalance`, `transactionHistory`, `marketData`. -/
structure AppState where
  portfolio : List (String × HoldingEntry)
  balance : ℚ
  previousBalance : ℚ
  transactionHistory : List Transaction
  marketData : List (String × Quote)
  deriving Repr, DecidableEq

/-- Lookup of `obj[key]` on an object modelled as an association list. -/
def lookupKey {α : Type} : List (String × α) → String → Option α
  | [], _ => none
  | (k, v) :: t, k' => if k = k' then some v else lookupKey t k'

/-- Assignment `obj[key] = v` on an object modelled as an association list:
replaces the first binding of `key`, or appends a fresh one. -/
def upsert {α : Type} : List (String × α) → String → α → List (String × α)
  | [], k, v => [(k, v)]
  | (k', v') :: t, k, v =>
      if k' = k then (k, v) :: t else (k', v') :: upsert t k v

/-- `delete obj[key]` on an object modelled as an association list. -/
def eraseKey {α : Type} : List (String × α) → String → List (String × α)
  | [], _ => []
  | (k', v') :: t, k => if k' = k then eraseKey t k else (k', v') :: eraseKey t k

/-- `calculateAverageCost(symbol, newQuantity, newPrice, existingDetails)`:
returns `newPrice` for a first purchase, otherwise the quantity-weighted
average `(avgCost*quantity + newPrice*newQuantity) / (quantity + newQuantity)`. -/
def calculateAverageCost (newQuantity : ℤ) (newPrice : ℚ)
    (existingDetails : Option HoldingEntry) : ℚ :=
  match existingDetails with
  | none => newPrice
  | some d =>
      (d.avgCost * (d.quantity : ℚ) + newPrice * (newQuantity : ℚ)) /
        ((d.quantity : ℚ) + (newQuantity : ℚ))

/-- Buy branch of the trade handler (source lines 1767-1792), entered after
validation with `previousBalance` already overwritten.  `totalCost =
currentPrice * quantity`; rejects with the insufficient-funds message when
`totalCost > balance`; otherwise deducts funds, upserts the ledger entry with
recomputed average cost and incremented quantity, and pushes a buy
transaction. -/
def doBuy (s : AppState) (symbol : String) (q : ℤ) (currentPrice : ℚ)
    (now : ℤ) : AppState × TradeOutcome :=
  let totalCost := currentPrice * (q : ℚ)
  if s.balance < totalCost then
    (s, TradeOutcome.insufficientFunds)
  else
    -- `portfolio[symbol] = portfolio[symbol] || { quantity: 0, avgCost: 0 }`
    let base := (lookupKey s.portfolio symbol).getD ⟨0, 0⟩
    let newAvg := calculateAverageCost q currentPrice (some base)
    let entry : HoldingEntry := ⟨base.quantity + q, newAvg⟩
    ({ s with
        balance := s.balance - totalCost
        portfolio := upsert s.portfolio symbol entry
        transactionHistory := s.transactionHistory ++
          [⟨TradeType.buy, symbol, q, currentPrice, totalCost, now⟩] },
     TradeOutcome.success)

/-- Sell branch of the trade handler (source lines 1794-1827): rejects with
the not-enough-shares message when there is no entry or fewer shares are held
than requested; otherwise adds `totalCost` to the balance, decrements the held
quantity (deleting the entry when it reaches exactly zero, leaving `avgCost`
untouched otherwise), and pushes a sell transaction. -/
def doSell (s : AppState) (symbol : String) (q : ℤ) (currentPrice : ℚ)
    (now : ℤ) : AppState × TradeOutcome :=
  let totalCost := currentPrice * (q : ℚ)
  match lookupKey s.portfolio symbol with
  | none => (s, TradeOutcome.insufficientShares)
  | some e =>
    if e.quantity < q then
      (s, TradeOutcome.insufficientShares)
    else
      let remaining := e.quantity - q
      ({ s with
          balance := s.balance + totalCost
          portfolio :=
            if remaining = 0 then eraseKey s.portfolio symbol
            else upsert s.portfolio symbol ⟨remaining, e.avgCost⟩
          transactionHistory := s.transactionHistory ++
            [⟨TradeType.sell, symbol, q, currentPrice, totalCost, now⟩] },
       TradeOutcome.success)

/-- The `tradeForm` submit handler (source lines 1737-1837).  `quantity` is
the result of `parseInt` on the form field (`none` models `NaN`); the guard
`!symbol || !quantity || quantity <= 0` rejects the empty symbol, `NaN`, and
any quantity `≤ 0` (`!quantity` catches `NaN` and `0`).  When the symbol has
no cached quote the handler awaits `fetchStockQuote`; its outcome is supplied
as `fetchResult` (`none` models a thrown fetch error).  On a successful fetch
the quote is first stored in `marketData` and then used.  `previousBalance`
is overwritten with the current balance before the buy/sell branches run. -/
def executeTrade (s : AppState) (symbol : String) (quantity : Option ℤ)
    (tradeType : TradeType) (fetchResult : Option Quote) (now : ℤ) :
    AppState × TradeOutcome :=
  match quantity with
  | none => (s, TradeOutcome.invalidInput)
  | some q =>
    if symbol = "" ∨ q ≤ 0 then
      (s, TradeOutcome.invalidInput)
    else
      match lookupKey s.marketData symbol with
      | some quote =>
        let s1 := { s with previousBalance := s.balance }
        match tradeType with
        | TradeType.buy => doBuy s1 symbol q quote.price now
        | TradeType.sell => doSell s1 symbol q quote.price now
      | none =>
        match fetchResult with
        | none => (s, TradeOutcome.quoteUnavailable)
        | some data =>
          let s1 := { s with
              marketData := upsert s.marketData symbol data
              previousBalance := s.balance }
          match tradeType with
          | TradeType.buy => doBuy s1 symbol q data.price now
          | TradeType.sell => doSell s1 symbol q data.price now

/-! ## Price generation (`generateStockQuote`, `generateStockHistory`) -/

/-- The fixed base-price table of `generateStockQuote` (source lines 824-845). -/
def basePrices : List (String × ℚ) :=
  [("AAPL", 175.50), ("MSFT", 320.75), ("GOOGL", 140.25), ("AMZN", 145.80),
   ("META", 325.40), ("TSLA", 240.60), ("NVDA", 450.30), ("JPM", 180.20),
   ("V", 270.15), ("WMT", 65.40), ("DIS", 105.30), ("NFLX", 410.25),
   ("PYPL", 62.80), ("INTC", 35.20), ("AMD", 120.50), ("CSCO", 48.75),
   ("ORCL", 115.40), ("IBM", 140.60), ("ADBE", 480.30), ("CRM", 250.80)]

/-- `generateStockQuote(symbol)` (source lines 820-864): base price from the
fixed table, with fallback `50 + Math.random() * 450` for unknown symbols;
price is `basePrice * (0.995 + Math.random() * 0.01)`; change is
`Math.random() * 2 - 0.9`.  The three `Math.random()` draws are the explicit
parameters `rBase`, `rFactor`, `rChange`. -/
def generateStockQuote (symbol : String) (rBase rFactor rChange : ℚ)
    (now : ℤ) : Quote :=
  let basePrice := (lookupKey basePrices symbol).getD (50 + rBase * 450)
  let randomFactor := 0.995 + rFactor * 0.01
  let price := basePrice * randomFactor
  let change := rChange * 2 - 0.9
  ⟨symbol, price, change, now⟩

/-- A history point `{ date, close }`; the `YYYY-MM-DD` date label is modelled
by its day number (`today - i` days, as produced by `setDate`). -/
structure HistoryPoint where
  date : ℤ
  close : ℚ
  deriving Repr, DecidableEq

/-- `dataPoints` selected from the timeframe in `generateStockHistory`
(source lines 880-884): default 30, with `1W→7`, `1M→30`, `3M→90`, `1Y→365`. -/
def historyDataPoints (timeframe : String) : ℕ :=
  if timeframe = "1W" then 7
  else if timeframe = "1M" then 30
  else if timeframe = "3M" then 90
  else if timeframe = "1Y" then 365
  else 30

/-- Volatility parameter of `generateStockHistory` (source line 898). -/
def historyVolatility : ℚ := 0.008

/-- Trend parameter of `generateStockHistory` (source line 899). -/
def historyTrend : ℚ := 0.0002

/-- Momentum parameter of `generateStockHistory` (source line 900). -/
def historyMomentum : ℚ := 0.85

/-- The `dates.map` body of `generateStockHistory` (source lines 905-927):
walks the price forward one step per date, combining a uniform random
component, a momentum component from the previous step's move, and the trend;
the point at the final index is forced to `currentPrice` exactly.  `remaining`
counts the dates still to emit, so the date of the head point is
`today - (remaining - 1)` and the final point has date `today`.  `rand idx` is
the `Math.random()` draw of iteration `idx`. -/
def walkPoints (rand : ℕ → ℚ) (currentPrice : ℚ) (today : ℤ) :
    ℕ → ℕ → ℚ → ℚ → List HistoryPoint
  | 0, _, _, _ => []
  | r + 1, idx, price, lastMove =>
    let randomComponent := (rand idx - 0.5) * historyVolatility
    let momentumComponent := lastMove * historyMomentum
    let dailyChange := randomComponent + momentumComponent + historyTrend
    let price' := price * (1 + dailyChange)
    let close := if r = 0 then currentPrice else price'
    ⟨today - r, close⟩ :: walkPoints rand currentPrice today r (idx + 1) price' dailyChange

/-- `generateStockHistory(symbol, timeframe)` (source lines 872-930): takes
the current price from the `marketData` cache (or a freshly generated quote —
drawing `rQuote` — when the symbol is absent), derives the point count from
the timeframe, starts the walk at `currentPrice * (1 - Math.random() * 0.05)`
(draw `rand 0`; walk iteration `idx` then draws `rand (idx + 1)`). -/
def generateStockHistory (marketData : List (String × Quote)) (symbol : String)
    (timeframe : String) (rand : ℕ → ℚ) (rQuote : ℚ × ℚ × ℚ) (today : ℤ) :
    List HistoryPoint :=
  let currentData := (lookupKey marketData symbol).getD
    (generateStockQuote symbol rQuote.1 rQuote.2.1 rQuote.2.2 today)
  let currentPrice := currentData.price
  let dataPoints := historyDataPoints timeframe
  let startPrice := currentPrice * (1 - rand 0 * 0.05)
  walkPoints (fun i => rand (i + 1)) currentPrice today dataPoints 0 startPrice 0

/-! ## The scheduler tick's per-symbol price update (`updateMarketDataAndUI`) -/

/-- `VOLATILITY` constant of the transaction-log variant (source line 773). -/
def VOLATILITY : ℚ := 0.02

/-- `MOMENTUM_FACTOR` constant of the transaction-log variant (source line 774). -/
def MOMENTUM_FACTOR : ℚ := 0.8

/-- One symbol's update inside `updateMarketDataAndUI` (source lines 988-1031),
acting on the `marketData` cache and the `lastPriceChange` map.  A symbol with
no cached quote gets a freshly generated quote and `lastPriceChange = 0`
(lines 990-994).  Otherwise the price change is the sum of a random component
`(Math.random() - 0.5) * VOLATILITY`, a momentum component
`lastChange * MOMENTUM_FACTOR` — where `lastChange` is
`lastPriceChange[symbol] || (Math.random() * 0.001 - 0.0005)`, so a stored
value of `0` (being falsy) is replaced by the random default — a constant
trend `0.0001`, and a jump `(Math.random() - 0.5) * 0.01` drawn when
`Math.random() > 0.98`.  The new price is `price * (1 + priceChange)`, the new
change is `change + priceChange * 100`, and `priceChange` is stored in
`lastPriceChange[symbol]`. -/
def tickSymbol (md : List (String × Quote)) (lpc : List (String × ℚ))
    (symbol : String) (rQuote : ℚ × ℚ × ℚ)
    (rDefault rRandom rJumpGate rJumpSize : ℚ) (now : ℤ) :
    List (String × Quote) × List (String × ℚ) :=
  match lookupKey md symbol with
  | none =>
    (upsert md symbol (generateStockQuote symbol rQuote.1 rQuote.2.1 rQuote.2.2 now),
     upsert lpc symbol 0)
  | some currentData =>
    let lastChange :=
      match lookupKey lpc symbol with
      | some c => if c = 0 then rDefault * 0.001 - 0.0005 else c
      | none => rDefault * 0.001 - 0.0005
    let randomComponent := (rRandom - 0.5) * VOLATILITY
    let momentumComponent := lastChange * MOMENTUM_FACTOR
    let trendComponent : ℚ := 0.0001
    let jumpComponent := if rJumpGate > 0.98 then (rJumpSize - 0.5) * 0.01 else 0
    let priceChange := randomComponent + momentumComponent + trendComponent + jumpComponent
    let newPrice := currentData.price * (1 + priceChange)
    (upsert md symbol ⟨symbol, newPrice, currentData.change + priceChange * 100, now⟩,
     upsert lpc symbol priceChange)

/-! ## `generatePriceUpdate` (live graph updates section, source lines 2165-2173) -/

/-- `generatePriceUpdate(currentPrice, volatility)`: applies a random factor
`(Math.random() - 0.48) * volatility` and clamps the result from below at
`currentPrice * 0.95`. -/
def generatePriceUpdate (currentPrice volatility rand : ℚ) : ℚ :=
  let randomFactor := (rand - 0.48) * volatility
  let newPrice := currentPrice * (1 + randomFactor)
  max newPrice (currentPrice * 0.95)

/-! ## The enhanced live-update scheduler and its watchdog (`live-updates.js`) -/

/-- Scheduler state: `lastUpdateTime` and a count of watchdog restarts. -/
structure SchedState where
  lastUpdateTime : ℤ
  restarts : ℕ
  deriving Repr, DecidableEq

/-- One invocation of the main tick callback of `startEnhancedLiveUpdates`
(`live-updates.js` lines 41-79).  `lastUpdateTime = Date.now()` runs at the
top of the `try` block (line 45) before any call that can throw, and the
`catch` handler re-runs `lastUpdateTime = Date.now()` (line 77, commented
"Still update the timestamp to prevent watchdog restart"), so the timestamp is
refreshed whether or not the tick body `throws`. -/
def tick (throws : Bool) (now : ℤ) (s : SchedState) : SchedState :=
  -- the market-data mutations of a successful tick are irrelevant to the
  -- watchdog's behaviour; `throws` is kept to record that both branches
  -- refresh the timestamp
  match throws with
  | true => { s with lastUpdateTime := now }
  | false => { s with lastUpdateTime := now }

/-- One invocation of the watchdog callback (`live-updates.js` lines 82-99):
if more than 3000 ms have passed since `lastUpdateTime`, it stops and restarts
the whole update system. -/
def watchdogCheck (now : ℤ) (s : SchedState) : SchedState :=
  if now - s.lastUpdateTime > 3000 then
    { s with restarts := s.restarts + 1 }
  else s

/-- The main interval and the watchdog interval both have a 5000 ms period and
are registered in that order by `startEnhancedLiveUpdates`, so at each 5000 ms
boundary the tick callback runs immediately before the watchdog callback.
`runThrows n` runs `n` such periods starting at load time `0`, with the tick
body throwing on every invocation. -/
def runThrows : ℕ → SchedState
  | 0 => ⟨0, 0⟩
  | n + 1 => watchdogCheck (5000 * ((n : ℤ) + 1)) (tick true (5000 * ((n : ℤ) + 1)) (runThrows n))

/-! ## Association-list lemmas -/

theorem lookupKey_upsert_self {α : Type} (l : List (String × α)) (k : String)
    (v : α) : lookupKey (upsert l k v) k = some v := by
  induction l with
  | nil => simp [upsert, lookupKey]
  | cons p t ih =>
    by_cases h : p.1 = k
    · simp [upsert, h, lookupKey]
    · simp [upsert, h, lookupKey, ih]

theorem lookupKey_eraseKey_self {α : Type} (l : List (String × α))
    (k : String) : lookupKey (eraseKey l k) k = none := by
  induction l with
  | nil => simp [eraseKey, lookupKey]
  | cons p t ih =>
    by_cases h : p.1 = k
    · simpa [eraseKey, h] using ih
    · simp [eraseKey, h, lookupKey, ih]

theorem mem_upsert {α : Type} {l : List (String × α)} {k : String} {v : α}
    {p : String × α} (hp : p ∈ upsert l k v) : p ∈ l ∨ p = (k, v) := by
  induction l with
  | nil => simpa [upsert] using hp
  | cons q t ih =>
    by_cases h : q.1 = k
    · simp only [upsert, h, if_pos] at hp
      rcases List.mem_cons.mp hp with h1 | h1
      · exact Or.inr h1
      · exact Or.inl (List.mem_cons_of_mem _ h1)
    · simp only [upsert, h, if_neg, not_false_iff] at hp
      rcases List.mem_cons.mp hp with h1 | h1
      · exact Or.inl (h1 ▸ List.mem_cons_self _ _)
      · rcases ih h1 with h2 | h2
        · exact Or.inl (List.mem_cons_of_mem _ h2)
        · exact Or.inr h2

theorem mem_eraseKey {α : Type} {l : List (String × α)} {k : String}
    {p : String × α} (hp : p ∈ eraseKey l k) : p ∈ l := by
  induction l with
  | nil => simp [eraseKey] at hp
  | cons q t ih =>
    by_cases h : q.1 = k
    · simp only [eraseKey, h, if_pos] at hp
      exact List.mem_cons_of_mem _ (ih hp)
    · simp only [eraseKey, h, if_neg, not_false_iff] at hp
      rcases List.mem_cons.mp hp with h1 | h1
      · exact h1 ▸ List.mem_cons_self _ _
      · exact List.mem_cons_of_mem _ (ih h1)

/-! ## Claims -/

/-- C1: a buy that succeeds (positive integer quantity, a cached price for
the symbol, and cost `price * quantity` not exceeding the balance) decreases
the balance by exactly `price * quantity`; sets the ledger entry's `avgCost`
to `(oldAvgCost*oldQty + price*quantity) / (oldQty + quantity)` — or simply
`price` when there was no prior entry — and its quantity to
`oldQty + quantity`; and appends one buy `Transaction` with
`total = price * quantity` to the transaction log. -/
theorem buy_success_accounting (s : AppState) (symbol : String) (q : ℤ)
    (quote : Quote) (fetch : Option Quote) (now : ℤ)
    (hsym : symbol ≠ "") (hq : 0 < q)
    (hmd : lookupKey s.marketData symbol = some quote)
    (hfunds : quote.price * (q : ℚ) ≤ s.balance) :
    (executeTrade s symbol (some q) TradeType.buy fetch now).2 =
      TradeOutcome.success ∧
    (executeTrade s symbol (some q) TradeType.buy fetch now).1.balance =
      s.balance - quote.price * (q : ℚ) ∧
    (lookupKey s.portfolio symbol = none →
      lookupKey (executeTrade s symbol (some q) TradeType.buy fetch
        now).1.portfolio symbol = some ⟨q, quote.price⟩) ∧
    (∀ e, lookupKey s.portfolio symbol = some e →
      lookupKey (executeTrade s symbol (some q) TradeType.buy fetch
        now).1.portfolio symbol =
        some ⟨e.quantity + q,
          (e.avgCost * (e.quantity : ℚ) + quote.price * (q : ℚ)) /
            ((e.quantity : ℚ) + (q : ℚ))⟩) ∧
    (executeTrade s symbol (some q) TradeType.buy fetch
      now).1.transactionHistory =
      s.transactionHistory ++
        [⟨TradeType.buy, symbol, q, quote.price, quote.price * (q : ℚ), now⟩] := by
  have hcond : ¬(symbol = "" ∨ q ≤ 0) := by
    push_neg
    exact ⟨hsym, hq⟩
  have hq0 : ((q : ℚ)) ≠ 0 := by
    exact_mod_cast hq.ne'
  have hnofunds : ¬(s.balance < quote.price * (q : ℚ)) := not_lt.mpr hfunds
  simp only [executeTrade, hmd, if_neg hcond, doBuy, hnofunds, if_false,
    if_neg hnofunds]
  refine ⟨trivial, trivial, ?_, ?_, trivial⟩
  · intro hnone
    simp [hnone, lookupKey_upsert_self, calculateAverageCost, hq0]
  · intro e he
    simp [he, lookupKey_upsert_self, calculateAverageCost]

/-- C1 witness: a concrete successful buy (10 shares at 175.52 against a
10000 balance, no prior entry). -/
theorem buy_success_accounting_witness :
    let s : AppState :=
      ⟨[], 10000, 10000, [], [("AAPL", ⟨"AAPL", 175.52, 0.5, 0⟩)]⟩
    (executeTrade s "AAPL" (some 10) TradeType.buy none 0).2 =
      TradeOutcome.success ∧
    (executeTrade s "AAPL" (some 10) TradeType.buy none 0).1.balance =
      s.balance - 175.52 * ((10 : ℤ) : ℚ) := by
  intro s
  have h := buy_success_accounting s "AAPL" 10 ⟨"AAPL", 175.52, 0.5, 0⟩ none 0
    (by decide) (by norm_num) (by simp [s, lookupKey]) (by norm_num [s])
  exact ⟨h.1, h.2.1⟩

/-- C2: every rejected trade attempt leaves the cash balance, the portfolio
ledger, and the transaction log unchanged, and each rejection cause is
reported by its own specific outcome: bad input (empty symbol, `NaN`, or
non-positive quantity) as `invalidInput`, a buy whose cost exceeds the
balance as `insufficientFunds`, and a sell of more shares than held (a
missing entry counting as zero held) as `insufficientShares`. -/
theorem trade_rejection_atomic (s : AppState) (symbol : String)
    (quantity : Option ℤ) (tradeType : TradeType) (fetch : Option Quote)
    (now : ℤ) :
    ((executeTrade s symbol quantity tradeType fetch now).2 ≠
        TradeOutcome.success →
      (executeTrade s symbol quantity tradeType fetch now).1.balance =
          s.balance ∧
      (executeTrade s symbol quantity tradeType fetch now).1.portfolio =
          s.portfolio ∧
      (executeTrade s symbol quantity tradeType fetch
          now).1.transactionHistory = s.transactionHistory) ∧
    ((symbol = "" ∨ quantity = none ∨ ∀ q, quantity = some q → q ≤ 0) →
      (executeTrade s symbol quantity tradeType fetch now).2 =
        TradeOutcome.invalidInput) ∧
    (∀ q quote, quantity = some q → 0 < q → symbol ≠ "" →
      lookupKey s.marketData symbol = some quote →
      tradeType = TradeType.buy → s.balance < quote.price * (q : ℚ) →
      (executeTrade s symbol quantity tradeType fetch now).2 =
        TradeOutcome.insufficientFunds) ∧
    (∀ q, quantity = some q → 0 < q → symbol ≠ "" →
      (∃ quote, lookupKey s.marketData symbol = some quote) →
      tradeType = TradeType.sell →
      (lookupKey s.portfolio symbol).elim 0 HoldingEntry.quantity < q →
      (executeTrade s symbol quantity tradeType fetch now).2 =
        TradeOutcome.insufficientShares) := by
  refine ⟨?_, ?_, ?_, ?_⟩
  · -- rejections are all-or-nothing
    cases quantity with
    | none => intro _; exact ⟨rfl, rfl, rfl⟩
    | some q =>
      by_cases hcond : symbol = "" ∨ q ≤ 0
      · simp [executeTrade, hcond]
      · cases hlk : lookupKey s.marketData symbol with
        | some quote =>
          cases tradeType with
          | buy =>
            by_cases hf : s.balance < quote.price * (q : ℚ)
            · simp [executeTrade, hcond, hlk, doBuy, hf]
            · simp [executeTrade, hcond, hlk, doBuy, hf]
          | sell =>
            cases hp : lookupKey s.portfolio symbol with
            | none => simp [executeTrade, hcond, hlk, doSell, hp]
            | some e =>
              by_cases hs : e.quantity < q
              · simp [executeTrade, hcond, hlk, doSell, hp, hs]
              · simp [executeTrade, hcond, hlk, doSell, hp, hs]
        | none =>
          cases fetch with
          | none => simp [executeTrade, hcond, hlk]
          | some data =>
            cases tradeType with
            | buy =>
              by_cases hf : s.balance < data.price * (q : ℚ)
              · simp [executeTrade, hcond, hlk, doBuy, hf]
              · simp [executeTrade, hcond, hlk, doBuy, hf]
            | sell =>
              cases hp : lookupKey s.portfolio symbol with
              | none => simp [executeTrade, hcond, hlk, doSell, hp]
              | some e =>
                by_cases hs : e.quantity < q
                · simp [executeTrade, hcond, hlk, doSell, hp, hs]
                · simp [executeTrade, hcond, hlk, doSell, hp, hs]
  · -- bad input is reported as invalidInput
    intro hbad
    cases quantity with
    | none => rfl
    | some q =>
      have hcond : symbol = "" ∨ q ≤ 0 := by
        rcases hbad with h | h | h
        · exact Or.inl h
        · exact absurd h (by simp)
        · exact Or.inr (h q rfl)
      simp [executeTrade, hcond]
  · -- an unaffordable buy is reported as insufficientFunds
    intro q quote hq hq0 hsym hlk htt hf
    subst hq htt
    have hcond : ¬(symbol = "" ∨ q ≤ 0) := by
      push_neg
      exact ⟨hsym, hq0⟩
    simp [executeTrade, hcond, hlk, doBuy, hf]
  · -- an overdrawn sell is reported as insufficientShares
    intro q hq hq0 hsym hquote htt hheld
    rcases hquote with ⟨quote, hlk⟩
    subst hq htt
    have hcond : ¬(symbol = "" ∨ q ≤ 0) := by
      push_neg
      exact ⟨hsym, hq0⟩
    cases hp : lookupKey s.portfolio symbol with
    | none => simp [executeTrade, hcond, hlk, doSell, hp]
    | some e =>
      rw [hp] at hheld
      simp only [Option.elim] at hheld
      simp [executeTrade, hcond, hlk, doSell, hp, hheld]

/-- C2 witness: a concrete unaffordable buy (cost 1755.20 against a balance
of 1000) is rejected as `insufficientFunds` and leaves balance, ledger, and
transaction log unchanged. -/
theorem trade_rejection_atomic_witness :
    let s : AppState :=
      ⟨[], 1000, 1000, [], [("AAPL", ⟨"AAPL", 175.52, 0.5, 0⟩)]⟩
    (executeTrade s "AAPL" (some 10) TradeType.buy none 0).1.balance =
        s.balance ∧
    (executeTrade s "AAPL" (some 10) TradeType.buy none 0).2 =
        TradeOutcome.insufficientFunds := by
  intro s
  have h := trade_rejection_atomic s "AAPL" (some 10) TradeType.buy none 0
  have hfunds := h.2.2.1 10 ⟨"AAPL", 175.52, 0.5, 0⟩ rfl (by norm_num)
    (by decide) (by simp [s, lookupKey]) rfl (by norm_num [s])
  exact ⟨(h.1 (by rw [hfunds]; decide)).1, hfunds⟩

theorem mem_of_lookupKey {α : Type} {l : List (String × α)} {k : String}
    {v : α} (h : lookupKey l k = some v) : (k, v) ∈ l := by
  induction l with
  | nil => simp [lookupKey] at h
  | cons p t ih =>
    by_cases hk : p.1 = k
    · simp only [lookupKey, hk, if_pos, Option.some.injEq] at h
      have hkv : (k, v) = p := by
        rw [← hk, ← h]
      rw [hkv]
      exact List.mem_cons_self _ _
    · simp only [lookupKey, hk, if_neg, not_false_iff] at h
      exact List.mem_cons_of_mem _ (ih h)

/-- The buy branch keeps every ledger quantity positive. -/
theorem doBuy_preserves_pos (s : AppState) (symbol : String) (q : ℤ)
    (price : ℚ) (now : ℤ) (hq : 0 < q)
    (hinv : ∀ p ∈ s.portfolio, 0 < p.2.quantity) :
    ∀ p ∈ (doBuy s symbol q price now).1.portfolio, 0 < p.2.quantity := by
  intro p hp
  simp only [doBuy] at hp
  by_cases hf : s.balance < price * (q : ℚ)
  · rw [if_pos hf] at hp
    exact hinv p hp
  · rw [if_neg hf] at hp
    simp only at hp
    rcases mem_upsert hp with h | h
    · exact hinv p h
    · subst h
      cases hl : lookupKey s.portfolio symbol with
      | none => simp [hl]; omega
      | some e =>
        have he := hinv _ (mem_of_lookupKey hl)
        simp only at he
        simp [hl]
        omega

/-- The sell branch keeps every ledger quantity positive. -/
theorem doSell_preserves_pos (s : AppState) (symbol : String) (q : ℤ)
    (price : ℚ) (now : ℤ)
    (hinv : ∀ p ∈ s.portfolio, 0 < p.2.quantity) :
    ∀ p ∈ (doSell s symbol q price now).1.portfolio, 0 < p.2.quantity := by
  intro p hp
  cases hl : lookupKey s.portfolio symbol with
  | none =>
    simp only [doSell, hl] at hp
    exact hinv p hp
  | some e =>
    simp only [doSell, hl] at hp
    by_cases hs : e.quantity < q
    · rw [if_pos hs] at hp
      exact hinv p hp
    · rw [if_neg hs] at hp
      simp only at hp
      by_cases hr : e.quantity - q = 0
      · rw [if_pos hr] at hp
        exact hinv p (mem_eraseKey hp)
      · rw [if_neg hr] at hp
        rcases mem_upsert hp with h | h
        · exact hinv p h
        · subst h
          simp only
          omega

/-- C3: trades never leave a zero-quantity ledger entry — if every entry's
quantity is positive before a trade, so is every entry's quantity after it;
selling exactly the full held quantity deletes the symbol's entry; and a
partial sell decrements the held quantity while leaving `avgCost`
unchanged. -/
theorem ledger_no_zero_entries (s : AppState) (symbol : String)
    (quantity : Option ℤ) (tradeType : TradeType) (fetch : Option Quote)
    (now : ℤ) :
    ((∀ p ∈ s.portfolio, 0 < p.2.quantity) →
      ∀ p ∈ (executeTrade s symbol quantity tradeType fetch
        now).1.portfolio, 0 < p.2.quantity) ∧
    (∀ q e quote, quantity = some q → 0 < q → symbol ≠ "" →
      lookupKey s.marketData symbol = some quote →
      tradeType = TradeType.sell →
      lookupKey s.portfolio symbol = some e →
      (e.quantity = q →
        lookupKey (executeTrade s symbol quantity tradeType fetch
          now).1.portfolio symbol = none) ∧
      (q < e.quantity →
        lookupKey (executeTrade s symbol quantity tradeType fetch
          now).1.portfolio symbol = some ⟨e.quantity - q, e.avgCost⟩)) := by
  constructor
  · -- positivity of held quantities is preserved
    intro hinv
    cases quantity with
    | none => exact hinv
    | some q =>
      by_cases hcond : symbol = "" ∨ q ≤ 0
      · simpa [executeTrade, hcond] using hinv
      · have hq : 0 < q := by
          rcases not_or.mp hcond with ⟨_, h⟩
          omega
        cases hlk : lookupKey s.marketData symbol with
        | some quote =>
          cases tradeType with
          | buy =>
            simp only [executeTrade, if_neg hcond, hlk]
            exact doBuy_preserves_pos _ symbol q quote.price now hq hinv
          | sell =>
            simp only [executeTrade, if_neg hcond, hlk]
            exact doSell_preserves_pos _ symbol q quote.price now hinv
        | none =>
          cases fetch with
          | none => simpa [executeTrade, hcond, hlk] using hinv
          | some data =>
            cases tradeType with
            | buy =>
              simp only [executeTrade, if_neg hcond, hlk]
              exact doBuy_preserves_pos _ symbol q data.price now hq hinv
            | sell =>
              simp only [executeTrade, if_neg hcond, hlk]
              exact doSell_preserves_pos _ symbol q data.price now hinv
  · -- full sells delete the entry, partial sells keep `avgCost`
    intro q e quote hq hq0 hsym hlk htt hp
    subst hq htt
    have hcond : ¬(symbol = "" ∨ q ≤ 0) := by
      push_neg
      exact ⟨hsym, hq0⟩
    constructor
    · intro hfull
      have hns : ¬(e.quantity < q) := by omega
      have hr : e.quantity - q = 0 := by omega
      simp [executeTrade, hcond, hlk, doSell, hp, hns, hr,
        lookupKey_eraseKey_self]
    · intro hpartial
      have hns : ¬(e.quantity < q) := by omega
      have hr : ¬(e.quantity - q = 0) := by omega
      simp [executeTrade, hcond, hlk, doSell, hp, hns, hr,
        lookupKey_upsert_self]

/-- C3 witness: from a ledger holding 10 shares, selling all 10 deletes the
entry, and the positivity invariant carries over. -/
theorem ledger_no_zero_entries_witness :
    let s : AppState :=
      ⟨[("AAPL", ⟨10, 175.52⟩)], 1000, 1000, [],
        [("AAPL", ⟨"AAPL", 180, 0.5, 0⟩)]⟩
    lookupKey (executeTrade s "AAPL" (some 10) TradeType.sell none
      0).1.portfolio "AAPL" = none ∧
    ∀ p ∈ (executeTrade s "AAPL" (some 10) TradeType.sell none
      0).1.portfolio, 0 < p.2.quantity := by
  intro s
  have h := ledger_no_zero_entries s "AAPL" (some 10) TradeType.sell none 0
  refine ⟨(h.2 10 ⟨10, 175.52⟩ ⟨"AAPL", 180, 0.5, 0⟩ rfl (by norm_num)
    (by decide) (by simp [s, lookupKey]) rfl (by simp [s, lookupKey])).1
    rfl, h.1 ?_⟩
  intro p hp
  simp only [s] at hp
  simp only [List.mem_singleton] at hp
  subst hp
  norm_num

/-- C4: from balance 10000 and an empty ledger, buying 10 shares of AAPL at
the cached price 175.52 succeeds with balance exactly 8244.80, ledger
`{AAPL: {quantity: 10, avgCost: 175.52}}`, and exactly one recorded
transaction with `total = 1755.20`. -/
theorem scenario_buy_ten_aapl :
    (executeTrade ⟨[], 10000, 10000, [], [("AAPL", ⟨"AAPL", 175.52, 0.5, 0⟩)]⟩
        "AAPL" (some 10) TradeType.buy none 0).2 = TradeOutcome.success ∧
    (executeTrade ⟨[], 10000, 10000, [], [("AAPL", ⟨"AAPL", 175.52, 0.5, 0⟩)]⟩
        "AAPL" (some 10) TradeType.buy none 0).1.balance = 8244.80 ∧
    (executeTrade ⟨[], 10000, 10000, [], [("AAPL", ⟨"AAPL", 175.52, 0.5, 0⟩)]⟩
        "AAPL" (some 10) TradeType.buy none 0).1.portfolio =
      [("AAPL", ⟨10, 175.52⟩)] ∧
    (executeTrade ⟨[], 10000, 10000, [], [("AAPL", ⟨"AAPL", 175.52, 0.5, 0⟩)]⟩
        "AAPL" (some 10) TradeType.buy none 0).1.transactionHistory =
      [⟨TradeType.buy, "AAPL", 10, 175.52, 1755.20, 0⟩] := by
  refine ⟨?_, ?_, ?_, ?_⟩ <;>
    · simp [executeTrade, doBuy, lookupKey, calculateAverageCost, upsert]
      norm_num

/-- C5 counterexample: the claim's formula fails when the stored price-change
fraction is `0` (exactly the value stored when a symbol's quote is first
generated).  JavaScript's `lastPriceChange[symbol] || default` treats the
stored `0` as falsy and substitutes a random default, so with draws
`rDefault = 3/4`, `rRandom = 1/2`, `rJumpGate = 1/2` the code yields price
`100 * (1 + 0.0003) = 100.03`, not the claimed
`100 * (1 + 0 + 0 * MOMENTUM_FACTOR + 0.0001 + 0) = 100.01`. -/
theorem tick_momentum_counterexample :
    ¬(((lookupKey (tickSymbol [("AAPL", ⟨"AAPL", 100, 0, 0⟩)] [("AAPL", 0)]
        "AAPL" (0, 0, 0) (3/4) (1/2) (1/2) 0 1).1 "AAPL").map Quote.price) =
      some (100 * (1 + ((1/2 : ℚ) - 0.5) * VOLATILITY + 0 * MOMENTUM_FACTOR +
        0.0001 + 0))) := by
  simp only [tickSymbol, lookupKey, upsert, VOLATILITY, MOMENTUM_FACTOR]
  norm_num

/-- C5 (amended): for a symbol with a cached quote whose stored last
price-change fraction is nonzero, one tick sets the price to
`previous.price * (1 + r + m + t + j)` with `r = (rRandom - 0.5) * VOLATILITY`,
`m = stored * MOMENTUM_FACTOR`, `t = 0.0001`, and jump
`j = (rJumpSize - 0.5) * 0.01` gated on `rJumpGate > 0.98`, and stores the
step's total change fraction for the symbol as the next step's momentum
input.  (When the stored fraction is zero or absent, a fresh random default
`rDefault * 0.001 - 0.0005` replaces it — the uncorrected claim fails
there.) -/
theorem tick_price_recurrence (md : List (String × Quote))
    (lpc : List (String × ℚ)) (symbol : String) (rQuote : ℚ × ℚ × ℚ)
    (rDefault rRandom rJumpGate rJumpSize : ℚ) (now : ℤ) (quote : Quote)
    (c : ℚ) (hmd : lookupKey md symbol = some quote)
    (hlpc : lookupKey lpc symbol = some c) (hc : c ≠ 0) :
    lookupKey (tickSymbol md lpc symbol rQuote rDefault rRandom rJumpGate
        rJumpSize now).1 symbol =
      some ⟨symbol,
        quote.price * (1 + ((rRandom - 0.5) * VOLATILITY +
          c * MOMENTUM_FACTOR + 0.0001 +
          (if rJumpGate > 0.98 then (rJumpSize - 0.5) * 0.01 else 0))),
        quote.change + ((rRandom - 0.5) * VOLATILITY + c * MOMENTUM_FACTOR +
          0.0001 +
          (if rJumpGate > 0.98 then (rJumpSize - 0.5) * 0.01 else 0)) * 100,
        now⟩ ∧
    lookupKey (tickSymbol md lpc symbol rQuote rDefault rRandom rJumpGate
        rJumpSize now).2 symbol =
      some ((rRandom - 0.5) * VOLATILITY + c * MOMENTUM_FACTOR + 0.0001 +
        (if rJumpGate > 0.98 then (rJumpSize - 0.5) * 0.01 else 0)) := by
  simp [tickSymbol, hmd, hlpc, hc, lookupKey_upsert_self]

/-- C5 witness: concrete evaluation of the amended recurrence with stored
fraction `0.001`. -/
theorem tick_price_recurrence_witness :
    lookupKey (tickSymbol [("AAPL", ⟨"AAPL", 100, 0, 0⟩)] [("AAPL", 0.001)]
        "AAPL" (0, 0, 0) 0 (1/2) (1/2) 0 1).2 "AAPL" =
      some (((1/2 : ℚ) - 0.5) * VOLATILITY + 0.001 * MOMENTUM_FACTOR +
        0.0001 + (if (1/2 : ℚ) > 0.98 then ((0 : ℚ) - 0.5) * 0.01 else 0)) :=
  (tick_price_recurrence [("AAPL", ⟨"AAPL", 100, 0, 0⟩)] [("AAPL", 0.001)]
    "AAPL" (0, 0, 0) 0 (1/2) (1/2) 0 1 ⟨"AAPL", 100, 0, 0⟩ 0.001
    (by simp [lookupKey]) (by simp [lookupKey]) (by norm_num)).2

/-- C6 counterexample: with a cached change of `5` and a step fraction of
`0.0009`, the tick writes change `5.09`, not the claimed fresh single-step
delta `0.09`: the change percentage accumulates across ticks. -/
theorem tick_change_counterexample :
    ¬(((lookupKey (tickSymbol [("AAPL", ⟨"AAPL", 100, 5, 0⟩)]
        [("AAPL", 0.001)] "AAPL" (0, 0, 0) 0 (1/2) (1/2) 0 1).1
        "AAPL").map Quote.change) =
      some ((((1/2 : ℚ) - 0.5) * VOLATILITY + 0.001 * MOMENTUM_FACTOR +
        0.0001 + 0) * 100)) := by
  simp only [tickSymbol, lookupKey, upsert, VOLATILITY, MOMENTUM_FACTOR]
  norm_num

/-- C6 (amended): on every tick, a symbol with a cached quote has its change
percentage updated by accumulation — the new change equals the previous
change plus the step's price-change fraction times 100 — rather than being
recomputed fresh as the single-step delta. -/
theorem tick_change_accumulates (md : List (String × Quote))
    (lpc : List (String × ℚ)) (symbol : String) (rQuote : ℚ × ℚ × ℚ)
    (rDefault rRandom rJumpGate rJumpSize : ℚ) (now : ℤ) (quote : Quote)
    (hmd : lookupKey md symbol = some quote) :
    ∃ pc : ℚ,
      lookupKey (tickSymbol md lpc symbol rQuote rDefault rRandom rJumpGate
        rJumpSize now).2 symbol = some pc ∧
      (lookupKey (tickSymbol md lpc symbol rQuote rDefault rRandom rJumpGate
        rJumpSize now).1 symbol).map Quote.change =
        some (quote.change + pc * 100) := by
  simp only [tickSymbol, hmd]
  exact ⟨_, lookupKey_upsert_self _ _ _, by simp [lookupKey_upsert_self]⟩

/-- C6 witness: concrete evaluation of the accumulation property. -/
theorem tick_change_accumulates_witness :
    ∃ pc : ℚ,
      lookupKey (tickSymbol [("AAPL", ⟨"AAPL", 100, 5, 0⟩)] [("AAPL", 0.001)]
        "AAPL" (0, 0, 0) 0 (1/2) (1/2) 0 1).2 "AAPL" = some pc ∧
      (lookupKey (tickSymbol [("AAPL", ⟨"AAPL", 100, 5, 0⟩)]
        [("AAPL", 0.001)] "AAPL" (0, 0, 0) 0 (1/2) (1/2) 0 1).1
        "AAPL").map Quote.change = some (5 + pc * 100) :=
  tick_change_accumulates [("AAPL", ⟨"AAPL", 100, 5, 0⟩)] [("AAPL", 0.001)]
    "AAPL" (0, 0, 0) 0 (1/2) (1/2) 0 1 ⟨"AAPL", 100, 5, 0⟩
    (by simp [lookupKey])

/-- C7 counterexample: ten full 5000 ms periods (50 s) of ticks whose body
throws on every invocation never trigger a watchdog restart — the claim that
the watchdog restarts the timer at least once within the check interval
following 3+ seconds of throwing ticks is false, because both the start of
the `try` block and the `catch` handler refresh `lastUpdateTime`. -/
theorem watchdog_throwing_counterexample :
    ¬(1 ≤ (runThrows 10).restarts) := by
  decide

/-- C7 (amended): a tick whose callback throws still refreshes the last-tick
timestamp (the `catch` handler is commented "Still update the timestamp to
prevent watchdog restart"), so throwing ticks never cause a restart — after
any number of all-throwing periods the restart count is 0.  The watchdog
restarts the system only when tick callbacks stop running altogether: any
check finding the timestamp more than 3000 ms stale performs a restart. -/
theorem watchdog_restart_behaviour :
    (∀ n : ℕ, (runThrows n).restarts = 0) ∧
    (∀ (t : ℤ) (s : SchedState), t - s.lastUpdateTime > 3000 →
      (watchdogCheck t s).restarts = s.restarts + 1) := by
  constructor
  · intro n
    induction n with
    | zero => rfl
    | succ n ih =>
      simp only [runThrows, tick, watchdogCheck]
      norm_num
      exact ih
  · intro t s h
    simp [watchdogCheck, h]

/-- C7 witness: 10 throwing periods give 0 restarts, while a check 5000 ms
after the last timestamp update performs one restart. -/
theorem watchdog_restart_behaviour_witness :
    (runThrows 10).restarts = 0 ∧
    (watchdogCheck 10000 ⟨5000, 0⟩).restarts = 0 + 1 :=
  ⟨watchdog_restart_behaviour.1 10,
   watchdog_restart_behaviour.2 10000 ⟨5000, 0⟩ (by norm_num)⟩

/-- C8: generating a quote for a symbol absent from the base-price table
never fails — the fallback base price `50 + rBase * 450` lies in `[50, 500)`
for any draw `rBase ∈ [0, 1)`, and the returned price is that base price
times the small multiplicative random factor `0.995 + rFactor * 0.01`. -/
theorem unknown_symbol_quote_fallback (symbol : String)
    (rBase rFactor rChange : ℚ) (now : ℤ)
    (hsym : lookupKey basePrices symbol = none)
    (h0 : 0 ≤ rBase) (h1 : rBase < 1) :
    50 ≤ 50 + rBase * 450 ∧ 50 + rBase * 450 < 500 ∧
    (generateStockQuote symbol rBase rFactor rChange now).price =
      (50 + rBase * 450) * (0.995 + rFactor * 0.01) := by
  refine ⟨by nlinarith, by nlinarith, ?_⟩
  simp [generateStockQuote, hsym]

/-- C8 witness: a concrete unknown symbol with `rBase = 1/2`. -/
theorem unknown_symbol_quote_fallback_witness :
    (generateStockQuote "ZZZZ" (1/2) (1/2) (1/2) 0).price =
      (50 + (1/2 : ℚ) * 450) * (0.995 + (1/2 : ℚ) * 0.01) :=
  (unknown_symbol_quote_fallback "ZZZZ" (1/2) (1/2) (1/2) 0 (by decide)
    (by norm_num) (by norm_num)).2.2

/-- C10: for every positive current price and every volatility and random
draw, `generatePriceUpdate` returns at least `0.95` times the current price —
in particular a strictly positive price, so repeated application can never
drive a price to zero or below. -/
theorem generatePriceUpdate_floor (currentPrice volatility rand : ℚ)
    (hp : 0 < currentPrice) :
    0.95 * currentPrice ≤ generatePriceUpdate currentPrice volatility rand ∧
    0 < generatePriceUpdate currentPrice volatility rand := by
  have hfloor : currentPrice * 0.95 ≤
      generatePriceUpdate currentPrice volatility rand := le_max_right _ _
  constructor
  · calc 0.95 * currentPrice = currentPrice * 0.95 := by ring
    _ ≤ _ := hfloor
  · calc (0 : ℚ) < currentPrice * 0.95 := by nlinarith
    _ ≤ _ := hfloor

/-- C10 witness: concrete evaluation at price 100. -/
theorem generatePriceUpdate_floor_witness :
    0.95 * (100 : ℚ) ≤ generatePriceUpdate 100 0.003 0 ∧
    (0 : ℚ) < generatePriceUpdate 100 0.003 0 :=
  generatePriceUpdate_floor 100 0.003 0 (by norm_num)

/-- Unfolding of one `walkPoints` step with the let-bindings expanded. -/
theorem walkPoints_succ (rand : ℕ → ℚ) (cp : ℚ) (today : ℤ) (r idx : ℕ)
    (p m : ℚ) :
    walkPoints rand cp today (r + 1) idx p m =
      ⟨today - r,
        if r = 0 then cp
        else p * (1 + ((rand idx - 0.5) * historyVolatility +
          m * historyMomentum + historyTrend))⟩ ::
      walkPoints rand cp today r (idx + 1)
        (p * (1 + ((rand idx - 0.5) * historyVolatility +
          m * historyMomentum + historyTrend)))
        ((rand idx - 0.5) * historyVolatility + m * historyMomentum +
          historyTrend) := by
  simp only [walkPoints]

theorem walkPoints_ne_nil (rand : ℕ → ℚ) (cp : ℚ) (today : ℤ) (r idx : ℕ)
    (p m : ℚ) : walkPoints rand cp today (r + 1) idx p m ≠ [] := by
  rw [walkPoints_succ]
  exact List.cons_ne_nil _ _

theorem getLast?_cons_of_ne_nil {α : Type} (a : α) {l : List α}
    (h : l ≠ []) : (a :: l).getLast? = l.getLast? := by
  cases l with
  | nil => exact absurd rfl h
  | cons b t => rw [List.getLast?_cons_cons]

/-- The final point of a nonempty walk is forced to the current price, at
date `today`. -/
theorem walkPoints_getLast (rand : ℕ → ℚ) (cp : ℚ) (today : ℤ) :
    ∀ (r idx : ℕ) (p m : ℚ),
      (walkPoints rand cp today (r + 1) idx p m).getLast? =
        some ⟨today, cp⟩ := by
  intro r
  induction r with
  | zero =>
    intro idx p m
    rw [walkPoints_succ]
    simp [walkPoints]
  | succ r ih =>
    intro idx p m
    rw [walkPoints_succ,
      getLast?_cons_of_ne_nil _ (walkPoints_ne_nil rand cp today r _ _ _)]
    exact ih _ _ _

/-- Walk points carry strictly increasing dates (oldest first). -/
theorem walkPoints_dates_sorted (rand : ℕ → ℚ) (cp : ℚ) (today : ℤ) :
    ∀ (r idx : ℕ) (p m : ℚ),
      List.Chain' (fun a b : HistoryPoint => a.date < b.date)
        (walkPoints rand cp today r idx p m) := by
  intro r
  induction r with
  | zero =>
    intro idx p m
    simp [walkPoints]
  | succ r ih =>
    intro idx p m
    rw [walkPoints_succ, List.chain'_cons']
    refine ⟨?_, ih _ _ _⟩
    intro y hy
    cases r with
    | zero => simp [walkPoints] at hy
    | succ r' =>
      rw [walkPoints_succ] at hy
      simp only [List.head?_cons, Option.mem_def, Option.some.injEq] at hy
      subst hy
      simp only
      omega

/-- C9: for every symbol with a cached quote and every timeframe, the
generated historical series has strictly increasing dates (oldest first) and
its final point's close equals the currently known price for the symbol
exactly — the series is anchored to the live quote. -/
theorem history_anchored_and_ordered (md : List (String × Quote))
    (symbol timeframe : String) (rand : ℕ → ℚ) (rQuote : ℚ × ℚ × ℚ)
    (today : ℤ) (quote : Quote)
    (hmd : lookupKey md symbol = some quote) :
    (generateStockHistory md symbol timeframe rand rQuote today).getLast? =
      some ⟨today, quote.price⟩ ∧
    List.Chain' (fun a b : HistoryPoint => a.date < b.date)
      (generateStockHistory md symbol timeframe rand rQuote today) := by
  have hpts : 1 ≤ historyDataPoints timeframe := by
    unfold historyDataPoints
    repeat' split
    all_goals norm_num
  obtain ⟨r, hr⟩ : ∃ r, historyDataPoints timeframe = r + 1 :=
    ⟨historyDataPoints timeframe - 1, by omega⟩
  simp only [generateStockHistory, hmd, Option.getD_some, hr]
  exact ⟨walkPoints_getLast _ _ _ _ _ _ _, walkPoints_dates_sorted _ _ _ _ _ _ _⟩

/-- C9 witness: a one-week series for a cached AAPL quote at price 100. -/
theorem history_anchored_and_ordered_witness :
    (generateStockHistory [("AAPL", ⟨"AAPL", 100, 0, 0⟩)] "AAPL" "1W"
      (fun _ => 1/2) (0, 0, 0) 0).getLast? =
      some ⟨0, 100⟩ ∧
    List.Chain' (fun a b : HistoryPoint => a.date < b.date)
      (generateStockHistory [("AAPL", ⟨"AAPL", 100, 0, 0⟩)] "AAPL" "1W"
        (fun _ => 1/2) (0, 0, 0) 0) :=
  history_anchored_and_ordered [("AAPL", ⟨"AAPL", 100, 0, 0⟩)] "AAPL" "1W"
    (fun _ => 1/2) (0, 0, 0) 0 ⟨"AAPL", 100, 0, 0⟩ (by simp [lookupKey])

end TradingSim
